import Mathlib

/-!
Verification of the surface/buffer management layer of the openfimg EGL
implementation (libsgl/egl.cpp): the geometric region engine
(`FGLWindowSurface::Rect` / `FGLWindowSurface::Region`), the manual pixel-copy
fallback of `FGLWindowSurface::copyBlt`, and the window-surface swap protocol
(`connect` / `swapBuffers` / `disconnect`), together with the pbuffer
constructor.

Machine integers (`int32_t` coordinates) are modelled as `Int`; none of the
verified operations perform arithmetic that can overflow on the inputs of
interest (they only compare, copy and take componentwise min/max of bounds).
Pointers and reference counts are modelled by explicit state and event traces.
-/

namespace FGL

/-- `FGLWindowSurface::Rect`: four integer bounds. -/
structure Rect where
  left : Int
  top : Int
  right : Int
  bottom : Int
deriving Repr, DecidableEq

/-- `Rect(w, h)` constructor: `(0, 0, w, h)`. -/
def Rect.ofSize (w h : Int) : Rect := ⟨0, 0, w, h⟩

/-- `Rect::andSelf`: componentwise intersection (max of left/top, min of
right/bottom). -/
def Rect.andSelf (r s : Rect) : Rect :=
  ⟨max r.left s.left, max r.top s.top, min r.right s.right, min r.bottom s.bottom⟩

/-- `Rect::isEmpty`: `left >= right || top >= bottom`. -/
def Rect.isEmpty (r : Rect) : Bool :=
  decide (r.left ≥ r.right) || decide (r.top ≥ r.bottom)

/-- Point-set semantics of a rectangle: the half-open box
`[left, right) × [top, bottom)`. -/
def Rect.Contains (r : Rect) (x y : Int) : Prop :=
  r.left ≤ x ∧ x < r.right ∧ r.top ≤ y ∧ y < r.bottom

instance (r : Rect) (x y : Int) : Decidable (r.Contains x y) :=
  inferInstanceAs (Decidable (_ ∧ _ ∧ _ ∧ _))

/-- `FGLWindowSurface::Region`: the fixed 4-slot storage array together with
its fill count is modelled as the list of the rectangles written, in write
order (`count` is the list length). -/
structure Region where
  rects : List Rect
deriving Repr, DecidableEq

/-- `Region::isEmpty`: `count <= 0`. -/
def Region.isEmpty (reg : Region) : Bool := reg.rects.length ≤ 0

/-- The `count` field (`ssize_t`): number of filled slots of `storage`. -/
def Region.count (reg : Region) : Int := reg.rects.length

/-- `Region::subtract(lhs, rhs)`: the sequence of conditional writes through
the `storage` cursor, in source order: top strip, then (within the overlap
band) left and right strips, then bottom strip; nothing is written when `lhs`
is empty. -/
def Region.subtract (lhs rhs : Rect) : Region :=
  if !lhs.isEmpty then
    { rects :=
        (if lhs.top < rhs.top then
          [⟨lhs.left, lhs.top, lhs.right, rhs.top⟩] else []) ++
        (let top := max lhs.top rhs.top
         let bot := min lhs.bottom rhs.bottom
         if top < bot then
           (if lhs.left < rhs.left then [⟨lhs.left, top, rhs.left, bot⟩] else []) ++
           (if lhs.right > rhs.right then [⟨rhs.right, top, lhs.right, bot⟩] else [])
         else []) ++
        (if lhs.bottom > rhs.bottom then
          [⟨lhs.left, rhs.bottom, lhs.right, lhs.bottom⟩] else []) }
  else { rects := [] }

/-- Point-set semantics of a region: some stored rectangle contains the
point. -/
def Region.Covers (reg : Region) (x y : Int) : Prop :=
  ∃ r ∈ reg.rects, r.Contains x y

instance (reg : Region) (x y : Int) : Decidable (reg.Covers x y) :=
  List.decidableBEx _ reg.rects

/-- The decomposition exactly as §4.1 of the specification words it: up to
four rectangles in the fixed order top / left / right / bottom, the left and
right strips confined to the vertical band
`[max(lhs.top, rhs.top), min(lhs.bottom, rhs.bottom))` and present only when
that band is non-empty; an empty `lhs` yields the empty list. -/
def subtractSpec (lhs rhs : Rect) : List Rect :=
  if lhs.isEmpty then []
  else
    let bandTop := max lhs.top rhs.top
    let bandBot := min lhs.bottom rhs.bottom
    (if lhs.top < rhs.top then
      [⟨lhs.left, lhs.top, lhs.right, rhs.top⟩] else []) ++
    (if bandTop < bandBot ∧ lhs.left < rhs.left then
      [⟨lhs.left, bandTop, rhs.left, bandBot⟩] else []) ++
    (if bandTop < bandBot ∧ lhs.right > rhs.right then
      [⟨rhs.right, bandTop, lhs.right, bandBot⟩] else []) ++
    (if lhs.bottom > rhs.bottom then
      [⟨lhs.left, rhs.bottom, lhs.right, lhs.bottom⟩] else [])


/-! ### Byte-level model of the manual copy fallback of `copyBlt`

`getBpp` is an unimplemented stub in the repository (`#warning Unimplemented
function`); the bytes-per-pixel of the shared format is therefore a parameter
`bpp` below, modelled from the spec ("compute source/destination strides from
format bytes-per-pixel"). -/

/-- Byte-addressable memory: a total map from byte addresses to byte
values. -/
def Mem : Type := Int → Nat

/-- `memcpy(d, s, n)`: the destination memory after copying `n` bytes from
source address `s` to destination address `d`. -/
def memcpy (dst src : Mem) (d s : Int) (n : Nat) : Mem :=
  fun a => if d ≤ a ∧ a < d + n then src (s + (a - d)) else dst a

/-- The do-while row loop of the manual fallback: `h` iterations of
`memcpy(d, s, size); d += dbpr; s += sbpr` (the loop is only entered with
`h ≥ 1`). -/
def copyRows (src : Mem) (size : Nat) (dbpr sbpr : Int) :
    Nat → Int → Int → Mem → Mem
  | 0, _, _, dst => dst
  | h + 1, d, s, dst =>
      copyRows src size dbpr sbpr h (d + dbpr) (s + sbpr) (memcpy dst src d s size)

/-- One rectangle of the manual fallback in `FGLWindowSurface::copyBlt`:
zero-area rectangles are skipped; when both byte pitches agree and the
rectangle's byte width equals the pitch, the per-row loop is collapsed into a
single contiguous copy of `size * h` bytes. -/
def copyRect (bpp : Nat) (dstStride srcStride : Int) (src : Mem) (r : Rect)
    (dst : Mem) : Mem :=
  let w : Int := r.right - r.left
  let h : Int := r.bottom - r.top
  if w ≤ 0 ∨ h ≤ 0 then dst
  else
    let size : Nat := w.toNat * bpp
    let sbpr : Int := srcStride * bpp
    let dbpr : Int := dstStride * bpp
    let s : Int := (r.left + srcStride * r.top) * bpp
    let d : Int := (r.left + dstStride * r.top) * bpp
    if dbpr = sbpr ∧ (size : Int) = sbpr then
      copyRows src (size * h.toNat) dbpr sbpr 1 d s dst
    else
      copyRows src size dbpr sbpr h.toNat d s dst

/-- The specification's row-by-row reference copy: identical to `copyRect`
but never collapsing the per-row loop. -/
def copyRectRowByRow (bpp : Nat) (dstStride srcStride : Int) (src : Mem)
    (r : Rect) (dst : Mem) : Mem :=
  let w : Int := r.right - r.left
  let h : Int := r.bottom - r.top
  if w ≤ 0 ∨ h ≤ 0 then dst
  else
    let size : Nat := w.toNat * bpp
    let sbpr : Int := srcStride * bpp
    let dbpr : Int := dstStride * bpp
    let s : Int := (r.left + srcStride * r.top) * bpp
    let d : Int := (r.left + dstStride * r.top) * bpp
    copyRows src size dbpr sbpr h.toNat d s dst

/-- The manual fallback over the whole clip region: the per-rectangle copy
applied to each rectangle in iteration order. -/
def copyBltFallback (bpp : Nat) (dstStride srcStride : Int) (src : Mem)
    (clip : Region) (dst : Mem) : Mem :=
  clip.rects.foldl (fun m r => copyRect bpp dstStride srcStride src r m) dst

/-- The byte addresses that belong to rectangle `r` in a plane with row
stride `stride` pixels and `bpp` bytes per pixel. -/
def InRectBytes (stride : Int) (bpp : Nat) (r : Rect) (a : Int) : Prop :=
  ∃ x y k : Int, r.left ≤ x ∧ x < r.right ∧ r.top ≤ y ∧ y < r.bottom ∧
    0 ≤ k ∧ k < bpp ∧ a = (x + stride * y) * bpp + k


/-! ### Window-surface swap protocol

Buffers, reference counts and gralloc pin/unpin calls are modelled by an
explicit state record plus an event trace.  `fimgAllocMemory` is an
unimplemented stub in the repository (`#warning Unimplemented critical
function`); allocation success is therefore an environment flag, modelled
from the spec's fallible allocator.  External provider calls
(`dequeueBuffer`, `lockBuffer`, `queueBuffer`, gralloc `lock`/`unlock`) are
environment-supplied outcomes, per §6 of the specification. -/

/-- EGL error code `EGL_BAD_ACCESS`. -/
def EGL_BAD_ACCESS : Nat := 0x3002

/-- EGL error code `EGL_BAD_ALLOC`. -/
def EGL_BAD_ALLOC : Nat := 0x3003

/-- An `android_native_buffer_t` as far as this layer reads it: identity plus
width/height/stride. -/
structure NativeBuffer where
  id : Nat
  width : Int
  height : Int
  stride : Int
deriving Repr, DecidableEq

/-- `FGLPlane`: the `data` pointer is modelled by whether it is non-null. -/
structure FGLPlane where
  width : Int
  height : Int
  stride : Int
  format : Int
  data : Bool
deriving Repr, DecidableEq

/-- The mutable fields of `FGLWindowSurface` that the verified operations
read or write.  `bits` records whether the current buffer is pinned
(CPU-mapped). -/
structure WindowSurfaceState where
  buffer : Option NativeBuffer
  previousBuffer : Option NativeBuffer
  width : Int
  height : Int
  bits : Bool
  depth : FGLPlane
  dirtyRegion : Rect
  oldDirtyRegion : Rect
deriving Repr, DecidableEq

/-- Observable actions on buffers and the depth plane, in program order. -/
inductive Ev where
  | dequeue (b : Nat)
  | queue (b : Option Nat)
  | incRef (b : Nat)
  | decRef (b : Nat)
  | lockWin (b : Nat)
  | pin (b : Nat)
  | unpin (b : Nat)
  | copy (src dst : Nat) (reg : Region)
  | freeDepth
  | allocDepth
deriving Repr, DecidableEq

/-- Result of one surface operation: final state, event trace, the error
passed to `setError` (thread-local, not a surface field), and the
`EGLBoolean` return value. -/
structure StepResult where
  state : WindowSurfaceState
  events : List Ev
  err : Option Nat
  ok : Bool
deriving Repr, DecidableEq

/-- Environment outcomes for one `swapBuffers` call. -/
structure SwapEnv where
  dequeued : NativeBuffer
  lockPrevOk : Bool
  allocOk : Bool
  lockNewOk : Bool
deriving Repr, DecidableEq

/-- The `eglSetSwapRectangleANDROID` block of `swapBuffers` (source lines
1194-1209): clip the dirty rectangle to the current buffer's bounds, when a
previous buffer exists compute `subtract(oldDirtyRegion, dirtyRegion)` and,
when non-empty and the previous buffer pins successfully, copy it back; then
store the clipped rectangle as `oldDirtyRegion`. -/
def dirtyPhase (lockPrevOk : Bool) (buf : NativeBuffer)
    (s : WindowSurfaceState) : WindowSurfaceState × List Ev :=
  if !s.dirtyRegion.isEmpty then
    let dirty := s.dirtyRegion.andSelf (Rect.ofSize buf.width buf.height)
    let evs :=
      match s.previousBuffer with
      | some prev =>
        let copyBack := Region.subtract s.oldDirtyRegion dirty
        if !copyBack.isEmpty then
          if lockPrevOk then
            [Ev.pin prev.id, Ev.copy prev.id buf.id copyBack, Ev.unpin prev.id]
          else []
        else []
      | none => []
    ({ s with dirtyRegion := dirty, oldDirtyRegion := dirty }, evs)
  else (s, [])

/-- Releasing the previous-buffer reference before reassignment (source
lines 1211-1214). -/
def releasePrevPhase (s : WindowSurfaceState) : WindowSurfaceState × List Ev :=
  match s.previousBuffer with
  | some prev => ({ s with previousBuffer := none }, [Ev.decRef prev.id])
  | none => (s, [])

/-- Depth-plane reallocation when the dequeued buffer's dimensions differ
from the recorded ones (source lines 1229-1245).  Returns the new state, the
depth events, and whether the reallocation failed. -/
def reallocDepthPhase (allocOk : Bool) (nb : NativeBuffer)
    (s : WindowSurfaceState) : WindowSurfaceState × List Ev × Bool :=
  if nb.width ≠ s.width ∨ nb.height ≠ s.height then
    let s1 := { s with width := nb.width, height := nb.height }
    if s1.depth.data then
      let s2 := { s1 with depth :=
        { s1.depth with width := nb.width, height := nb.height,
                        stride := nb.stride, data := allocOk } }
      (s2, [Ev.freeDepth, Ev.allocDepth], !allocOk)
    else (s1, [], false)
  else (s, [], false)

/-- `FGLWindowSurface::swapBuffers`: fail with `EGL_BAD_ACCESS` when no
buffer is pinned; otherwise run the dirty-region copy-back, release the
previous buffer, unpin and queue the current buffer and promote it to
previous (ownership transfers, no new reference), dequeue and window-lock a
new buffer, reallocate the depth plane on a size change (failing with
`EGL_BAD_ALLOC`), then take a reference on the new buffer and pin it
(failing with `EGL_BAD_ACCESS`). -/
def swapBuffers (env : SwapEnv) (s : WindowSurfaceState) : StepResult :=
  match s.buffer with
  | none => ⟨s, [], some EGL_BAD_ACCESS, false⟩
  | some buf =>
    let p1 := dirtyPhase env.lockPrevOk buf s
    let p2 := releasePrevPhase p1.1
    let s3 := { p2.1 with previousBuffer := some buf,
                          buffer := some env.dequeued }
    let evs3 := [Ev.unpin buf.id, Ev.queue (some buf.id),
                 Ev.dequeue env.dequeued.id, Ev.lockWin env.dequeued.id]
    let p4 := reallocDepthPhase env.allocOk env.dequeued s3
    let evs := p1.2 ++ p2.2 ++ evs3 ++ p4.2.1
    if p4.2.2 then
      ⟨p4.1, evs, some EGL_BAD_ALLOC, false⟩
    else if env.lockNewOk then
      ⟨{ p4.1 with bits := true },
        evs ++ [Ev.incRef env.dequeued.id, Ev.pin env.dequeued.id], none, true⟩
    else
      ⟨p4.1, evs ++ [Ev.incRef env.dequeued.id], some EGL_BAD_ACCESS, false⟩

/-- Environment outcomes for one `connect` call. -/
structure ConnectEnv where
  dequeued : Option NativeBuffer
  allocOk : Bool
  lockOk : Bool
deriving Repr, DecidableEq

/-- `FGLWindowSurface::connect`: dequeue a first buffer (failing with
`EGL_BAD_ALLOC`), record its dimensions, allocate the depth plane when a
depth format was requested (failing with `EGL_BAD_ALLOC`), take a reference
on the buffer, window-lock it and pin it (failing with `EGL_BAD_ACCESS`). -/
def connect (env : ConnectEnv) (s : WindowSurfaceState) : StepResult :=
  match env.dequeued with
  | none => ⟨s, [], some EGL_BAD_ALLOC, false⟩
  | some buf =>
    let s1 := { s with buffer := some buf,
                       width := buf.width, height := buf.height }
    let finish := fun (s' : WindowSurfaceState) (evs : List Ev) =>
      if env.lockOk then
        (⟨{ s' with bits := true },
          evs ++ [Ev.incRef buf.id, Ev.lockWin buf.id, Ev.pin buf.id],
          none, true⟩ : StepResult)
      else
        ⟨s', evs ++ [Ev.incRef buf.id, Ev.lockWin buf.id],
          some EGL_BAD_ACCESS, false⟩
    if s1.depth.format ≠ 0 then
      let s2 := { s1 with depth :=
        { s1.depth with width := buf.width, height := buf.height,
                        stride := buf.width, data := env.allocOk } }
      if env.allocOk then finish s2 [Ev.dequeue buf.id, Ev.allocDepth]
      else ⟨s2, [Ev.dequeue buf.id, Ev.allocDepth], some EGL_BAD_ALLOC, false⟩
    else finish s1 [Ev.dequeue buf.id]

/-- `FGLWindowSurface::disconnect`: unpin the current buffer if pinned,
queue it back (the source queues unconditionally, even a null buffer), and
release the current- and previous-buffer references. -/
def disconnect (s : WindowSurfaceState) : WindowSurfaceState × List Ev :=
  match s.buffer with
  | some buf =>
    let p1 :=
      if s.bits then ({ s with bits := false }, [Ev.unpin buf.id])
      else (s, ([] : List Ev))
    let s2 := { p1.1 with buffer := none }
    let evs2 := [Ev.queue (some buf.id), Ev.decRef buf.id]
    match s.previousBuffer with
    | some prev =>
      ({ s2 with previousBuffer := none }, p1.2 ++ evs2 ++ [Ev.decRef prev.id])
    | none => (s2, p1.2 ++ evs2)
  | none =>
    match s.previousBuffer with
    | some prev =>
      ({ s with previousBuffer := none }, [Ev.queue none, Ev.decRef prev.id])
    | none => (s, [Ev.queue none])

/-- The state established by the `FGLWindowSurface` constructor: no buffer,
nothing pinned, depth data null with the requested format, width/height from
the native-window query; `dirtyRegion`/`oldDirtyRegion` are
default-constructed (uninitialized in the C++), hence arbitrary parameters
here. -/
def initialState (w h depthFormat : Int) (d od : Rect) : WindowSurfaceState :=
  { buffer := none, previousBuffer := none, width := w, height := h,
    bits := false,
    depth := { width := 0, height := 0, stride := 0,
               format := depthFormat, data := false },
    dirtyRegion := d, oldDirtyRegion := od }

/-- `n` consecutive successful `swapBuffers` calls; the call after state
index `k` dequeues buffer `bufs (k+1)` and all provider operations
succeed. -/
def runSwaps (bufs : Nat → NativeBuffer) :
    Nat → Nat → WindowSurfaceState → WindowSurfaceState × List Ev
  | _, 0, s => (s, [])
  | k, n + 1, s =>
    let r := swapBuffers ⟨bufs (k + 1), true, true, true⟩ s
    let p := runSwaps bufs (k + 1) n r.state
    (p.1, r.events ++ p.2)

/-- The full trace of `connect`, `N` successful `swapBuffers` calls, and
`disconnect`, starting from a fresh surface state. -/
def fullRun (bufs : Nat → NativeBuffer) (N : Nat)
    (s0 : WindowSurfaceState) : List Ev :=
  let c := connect ⟨some (bufs 0), true, true⟩ s0
  let p := runSwaps bufs 0 N c.state
  let d := disconnect p.1
  c.events ++ p.2 ++ d.2

/-- The decRef events of the release-previous-buffer block, as a function of
the previous-buffer field. -/
def prevDecEvents : Option NativeBuffer → List Ev
  | some p => [Ev.decRef p.id]
  | none => []

/-- Contribution of an optional previous buffer to the reference count of
buffer `id`. -/
def prevContrib (pOpt : Option NativeBuffer) (id : Nat) : Nat :=
  match pOpt with
  | some p => if p.id = id then 1 else 0
  | none => 0

/-- Number of active pins per buffer id after a trace. -/
def lockState : List Ev → (Nat → Nat) → (Nat → Nat)
  | [], m => m
  | Ev.pin b :: t, m => lockState t (fun x => if x = b then m x + 1 else m x)
  | Ev.unpin b :: t, m => lockState t (fun x => if x = b then m x - 1 else m x)
  | _ :: t, m => lockState t m

/-- Checks along a trace that every queued buffer has no active pin at the
moment it is queued. -/
def checkQueueSafe : List Ev → (Nat → Nat) → Bool
  | [], _ => true
  | Ev.pin b :: t, m => checkQueueSafe t (fun x => if x = b then m x + 1 else m x)
  | Ev.unpin b :: t, m => checkQueueSafe t (fun x => if x = b then m x - 1 else m x)
  | Ev.queue (some b) :: t, m => (m b == 0) && checkQueueSafe t m
  | _ :: t, m => checkQueueSafe t m

/-- The previous buffer held after `connect` and `k` successful swaps:
none after `connect`, otherwise the buffer dequeued one step earlier. -/
def prevAt (bufs : Nat → NativeBuffer) : Nat → Option NativeBuffer
  | 0 => none
  | k + 1 => some (bufs k)

/-- Number of `incRef id` events issued by swaps `k+1 .. k+n` (each swap
takes one reference on its dequeued buffer). -/
def incCount (bufs : Nat → NativeBuffer) (id : Nat) : Nat → Nat → Nat
  | _, 0 => 0
  | k, n + 1 =>
      (if (bufs (k + 1)).id = id then 1 else 0) + incCount bufs id (k + 1) n

/-- Number of `decRef id` events issued by swaps `k+1 .. k+n` (each swap
releases the previous-buffer reference when one exists). -/
def decCount (bufs : Nat → NativeBuffer) (id : Nat) : Nat → Nat → Nat
  | _, 0 => 0
  | k, n + 1 => prevContrib (prevAt bufs k) id + decCount bufs id (k + 1) n

/-- References outstanding on buffer `id` after `connect` and `m` swaps: one
for the current buffer and one for the previous buffer when it exists. -/
def openRefs (bufs : Nat → NativeBuffer) (id : Nat) (m : Nat) : Nat :=
  (if (bufs m).id = id then 1 else 0) + prevContrib (prevAt bufs m) id

/-- The pin-count map with a single pin on buffer `bid`. -/
def lockOne (bid : Nat) : Nat → Nat := fun x => if x = bid then 1 else 0

/-! ### Pbuffer surfaces -/

/-- Pixel-format tag `FGL_PIXEL_FORMAT_RGBA_8888`.  Modelled from the spec:
the header defining the `FGL_PIXEL_FORMAT_*` tags is not part of the sources;
only the distinctness of the four recognized tags matters here. -/
def FGL_PIXEL_FORMAT_RGBA_8888 : Int := 1

/-- Pixel-format tag `FGL_PIXEL_FORMAT_RGBX_8888` (modelled, see above). -/
def FGL_PIXEL_FORMAT_RGBX_8888 : Int := 2

/-- Pixel-format tag `FGL_PIXEL_FORMAT_RGB_565` (modelled, see above). -/
def FGL_PIXEL_FORMAT_RGB_565 : Int := 4

/-- Pixel-format tag `FGL_PIXEL_FORMAT_A_8` (modelled, see above). -/
def FGL_PIXEL_FORMAT_A_8 : Int := 8

/-- An `FGLPbufferSurface` after construction. -/
structure PbufferSurface where
  pbuffer : FGLPlane
  depth : FGLPlane
  err : Option Nat
deriving Repr, DecidableEq

/-- The `FGLPbufferSurface` constructor.  `alloc` models `fimgAllocMemory`
(an unimplemented stub in the repository; modelled from the spec as a
fallible allocator keyed by the requested byte count).  Note the source's
default switch case stores `pbuffer.data = 0` and falls through to the
unconditional allocation `pbuffer.data = fimgAllocMemory(size)` below the
switch, so that store is dead. -/
def mkPbufferSurface (alloc : Int → Bool) (w h f depthFormat : Int) :
    PbufferSurface :=
  let size0 := w * h
  let size :=
    if f = FGL_PIXEL_FORMAT_A_8 then size0 * 1
    else if f = FGL_PIXEL_FORMAT_RGB_565 then size0 * 2
    else if f = FGL_PIXEL_FORMAT_RGBA_8888 then size0 * 4
    else if f = FGL_PIXEL_FORMAT_RGBX_8888 then size0 * 4
    else size0
  let pb : FGLPlane :=
    { width := w, height := h, stride := w, format := f, data := alloc size }
  if depthFormat ≠ 0 then
    let dp : FGLPlane :=
      { width := w, height := h, stride := w, format := depthFormat,
        data := alloc (w * h * 4) }
    { pbuffer := pb, depth := dp,
      err := if dp.data then none else some EGL_BAD_ALLOC }
  else
    { pbuffer := pb,
      depth := { width := 0, height := 0, stride := 0,
                 format := depthFormat, data := false },
      err := none }

/-- `FGLPbufferSurface::initCheck`: `pbuffer.data != 0`. -/
def PbufferSurface.initCheck (s : PbufferSurface) : Bool := s.pbuffer.data

end FGL

namespace FGL

theorem subtract_rects_eq_subtractSpec (lhs rhs : Rect) :
    (Region.subtract lhs rhs).rects = subtractSpec lhs rhs := by
  unfold Region.subtract subtractSpec
  by_cases he : lhs.isEmpty <;> simp [he] <;> split_ifs <;> simp_all

/-- Membership characterization of the rectangles produced by `subtract`. -/
theorem mem_subtract_rects (lhs rhs r : Rect) :
    r ∈ (Region.subtract lhs rhs).rects ↔
      lhs.isEmpty = false ∧
      ((lhs.top < rhs.top ∧ r = ⟨lhs.left, lhs.top, lhs.right, rhs.top⟩) ∨
       (max lhs.top rhs.top < min lhs.bottom rhs.bottom ∧ lhs.left < rhs.left ∧
         r = ⟨lhs.left, max lhs.top rhs.top, rhs.left, min lhs.bottom rhs.bottom⟩) ∨
       (max lhs.top rhs.top < min lhs.bottom rhs.bottom ∧ lhs.right > rhs.right ∧
         r = ⟨rhs.right, max lhs.top rhs.top, lhs.right, min lhs.bottom rhs.bottom⟩) ∨
       (lhs.bottom > rhs.bottom ∧ r = ⟨lhs.left, rhs.bottom, lhs.right, lhs.bottom⟩)) := by
  unfold Region.subtract
  by_cases he : lhs.isEmpty <;> simp [he] <;> tauto

end FGL

namespace FGL

theorem isEmpty_eq_false_iff (r : Rect) :
    r.isEmpty = false ↔ r.left < r.right ∧ r.top < r.bottom := by
  simp [Rect.isEmpty]

theorem not_contains_of_isEmpty (r : Rect) (h : r.isEmpty = true) (x y : Int) :
    ¬ r.Contains x y := by
  simp [Rect.isEmpty] at h
  rintro ⟨h1, h2, h3, h4⟩
  omega

/-- Every point of `lhs` is covered by the subtraction result or lies in the
intersection of the two rectangles. -/
theorem subtract_covers (a b : Rect) (x y : Int) (h : a.Contains x y) :
    (a.andSelf b).Contains x y ∨ (Region.subtract a b).Covers x y := by
  obtain ⟨h1, h2, h3, h4⟩ := h
  have hne : a.isEmpty = false := by simp [Rect.isEmpty]; omega
  by_cases hb : b.Contains x y
  · left
    obtain ⟨g1, g2, g3, g4⟩ := hb
    refine ⟨?_, ?_, ?_, ?_⟩ <;> simp [Rect.andSelf] <;> omega
  · right
    rw [Rect.Contains, not_and_or, not_and_or, not_and_or] at hb
    by_cases hy1 : y < b.top
    · exact ⟨⟨a.left, a.top, a.right, b.top⟩,
        (mem_subtract_rects a b _).mpr ⟨hne, Or.inl ⟨by omega, rfl⟩⟩,
        by exact ⟨h1, h2, h3, hy1⟩⟩
    by_cases hy2 : b.bottom ≤ y
    · exact ⟨⟨a.left, b.bottom, a.right, a.bottom⟩,
        (mem_subtract_rects a b _).mpr ⟨hne, Or.inr (Or.inr (Or.inr ⟨by omega, rfl⟩))⟩,
        by exact ⟨h1, h2, hy2, h4⟩⟩
    have hx : x < b.left ∨ b.right ≤ x := by omega
    rcases hx with hx | hx
    · exact ⟨⟨a.left, max a.top b.top, b.left, min a.bottom b.bottom⟩,
        (mem_subtract_rects a b _).mpr
          ⟨hne, Or.inr (Or.inl ⟨by omega, by omega, rfl⟩)⟩,
        by refine ⟨h1, hx, ?_, ?_⟩ <;> dsimp only <;> omega⟩
    · exact ⟨⟨b.right, max a.top b.top, a.right, min a.bottom b.bottom⟩,
        (mem_subtract_rects a b _).mpr
          ⟨hne, Or.inr (Or.inr (Or.inl ⟨by omega, by omega, rfl⟩))⟩,
        by refine ⟨hx, h2, ?_, ?_⟩ <;> dsimp only <;> omega⟩

/-- When `a` and `b` genuinely intersect, every rectangle produced by the
subtraction stays inside `a`. -/
theorem subtract_inside (a b : Rect) (hi : (a.andSelf b).isEmpty = false)
    (r : Rect) (hr : r ∈ (Region.subtract a b).rects) (x y : Int)
    (h : r.Contains x y) : a.Contains x y := by
  rw [isEmpty_eq_false_iff] at hi
  simp [Rect.andSelf] at hi
  obtain ⟨⟨hi1, hi2⟩, hi3, hi4⟩ := hi
  rw [mem_subtract_rects] at hr
  obtain ⟨h1, h2, h3, h4⟩ := h
  rcases hr.2 with ⟨hg, rfl⟩ | ⟨hg, hg2, rfl⟩ | ⟨hg, hg2, rfl⟩ | ⟨hg, rfl⟩ <;>
    (simp_all; refine ⟨by omega, by omega, by omega, by omega⟩)

/-- No rectangle produced by the subtraction meets `b`. -/
theorem subtract_disjoint_rhs (a b : Rect) (r : Rect)
    (hr : r ∈ (Region.subtract a b).rects) (x y : Int) :
    ¬ (r.Contains x y ∧ b.Contains x y) := by
  rw [mem_subtract_rects] at hr
  rintro ⟨⟨h1, h2, h3, h4⟩, g1, g2, g3, g4⟩
  rcases hr.2 with ⟨hg, rfl⟩ | ⟨hg, hg2, rfl⟩ | ⟨hg, hg2, rfl⟩ | ⟨hg, rfl⟩ <;>
    simp_all <;> omega

end FGL

namespace FGL

theorem andSelf_contains_iff (a b : Rect) (x y : Int) :
    (a.andSelf b).Contains x y ↔ a.Contains x y ∧ b.Contains x y := by
  simp only [Rect.andSelf, Rect.Contains]
  omega

theorem subtract_of_lhs_empty (a b : Rect) (h : a.isEmpty = true) :
    (Region.subtract a b).rects = [] := by
  simp [Region.subtract, h]

theorem subtract_length_le_four (lhs rhs : Rect) :
    (Region.subtract lhs rhs).rects.length ≤ 4 := by
  rw [subtract_rects_eq_subtractSpec]
  unfold subtractSpec
  split_ifs <;> simp <;> split_ifs <;> simp

/-- C1: `subtract(lhs, rhs)` produces its rectangles in exactly the fixed
order top strip / left strip / right strip / bottom strip with exactly the
guards `lhs.top < rhs.top`, band non-empty ∧ `lhs.left < rhs.left`, band
non-empty ∧ `lhs.right > rhs.right`, `lhs.bottom > rhs.bottom`, where the band
is `[max(lhs.top, rhs.top), min(lhs.bottom, rhs.bottom))`; and an empty `lhs`
yields the empty region. -/
theorem subtract_order_and_guards (lhs rhs : Rect) :
    (Region.subtract lhs rhs).rects = subtractSpec lhs rhs ∧
    (lhs.isEmpty = true → (Region.subtract lhs rhs).isEmpty = true) := by
  refine ⟨subtract_rects_eq_subtractSpec lhs rhs, fun h => ?_⟩
  simp [Region.isEmpty, subtract_of_lhs_empty lhs rhs h]

/-- Witness for `subtract_order_and_guards` at a concrete empty `lhs`. -/
theorem subtract_order_and_guards_witness :
    ((⟨5, 5, 5, 9⟩ : Rect).isEmpty = true) ∧
      (Region.subtract ⟨5, 5, 5, 9⟩ ⟨0, 0, 2, 2⟩).isEmpty = true :=
  ⟨by decide, (subtract_order_and_guards ⟨5, 5, 5, 9⟩ ⟨0, 0, 2, 2⟩).2 (by decide)⟩

/-- C2 is false as stated: with the disjoint pair `a = (0,0,10,10)`,
`b = (0,20,10,30)` the subtraction result is `{(0,0,10,20)}`, whose point
`(0,15)` lies outside `a` while `intersect(a,b)` is empty, so the union of the
result plus the intersection is not exactly `a`. -/
theorem subtract_exact_cover_counterexample :
    ¬ ((∀ x y : Int,
          ((Region.subtract ⟨0, 0, 10, 10⟩ ⟨0, 20, 10, 30⟩).Covers x y ∨
            (Rect.andSelf ⟨0, 0, 10, 10⟩ ⟨0, 20, 10, 30⟩).Contains x y) ↔
            Rect.Contains ⟨0, 0, 10, 10⟩ x y) ∧
        (∀ r ∈ (Region.subtract (⟨0, 0, 10, 10⟩ : Rect) ⟨0, 20, 10, 30⟩).rects,
          ∀ x y : Int, ¬ (r.Contains x y ∧ Rect.Contains ⟨0, 20, 10, 30⟩ x y))) :=
  fun h => absurd (h.1 0 15) (by decide)

/-- C2 (amended): the rectangles of `subtract(a,b)` together with
`intersect(a,b)` always cover every point of `a`, and no result rectangle
overlaps `b`; the cover is exactly `a` whenever `a` and `b` have a non-empty
intersection (without that proviso a result strip may extend outside `a`). -/
theorem subtract_cover_and_disjoint (a b : Rect) :
    (∀ x y : Int, a.Contains x y →
       (Region.subtract a b).Covers x y ∨ (a.andSelf b).Contains x y) ∧
    ((a.andSelf b).isEmpty = false →
       ∀ x y : Int,
         ((Region.subtract a b).Covers x y ∨ (a.andSelf b).Contains x y) ↔
           a.Contains x y) ∧
    (∀ r ∈ (Region.subtract a b).rects, ∀ x y : Int,
       ¬ (r.Contains x y ∧ b.Contains x y)) := by
  refine ⟨fun x y h => (subtract_covers a b x y h).symm, fun hi x y => ?_,
    fun r hr x y => subtract_disjoint_rhs a b r hr x y⟩
  constructor
  · rintro (⟨r, hr, hc⟩ | hc)
    · exact subtract_inside a b hi r hr x y hc
    · exact ((andSelf_contains_iff a b x y).mp hc).1
  · exact fun h => (subtract_covers a b x y h).symm

/-- Witness for `subtract_cover_and_disjoint` with an overlapping pair. -/
theorem subtract_cover_and_disjoint_witness :
    ((Rect.andSelf ⟨0, 0, 2, 2⟩ ⟨1, 1, 3, 3⟩).isEmpty = false) ∧
      (((Region.subtract ⟨0, 0, 2, 2⟩ ⟨1, 1, 3, 3⟩).Covers 0 0 ∨
          (Rect.andSelf ⟨0, 0, 2, 2⟩ ⟨1, 1, 3, 3⟩).Contains 0 0) ↔
        Rect.Contains ⟨0, 0, 2, 2⟩ 0 0) :=
  ⟨by decide, (subtract_cover_and_disjoint ⟨0, 0, 2, 2⟩ ⟨1, 1, 3, 3⟩).2.1 (by decide) 0 0⟩

/-- C5 is false as stated: `a = (0,0,10,10)` and `b = (0,20,10,30)` do not
intersect, yet `subtract(a,b)` yields `{(0,0,10,20)}`, not `{a}`. -/
theorem subtract_disjoint_counterexample :
    ¬ (((Rect.andSelf ⟨0, 0, 10, 10⟩ ⟨0, 20, 10, 30⟩).isEmpty = true) →
       (Region.subtract ⟨0, 0, 10, 10⟩ ⟨0, 20, 10, 30⟩).rects =
         (if (⟨0, 0, 10, 10⟩ : Rect).isEmpty then [] else [⟨0, 0, 10, 10⟩])) := by
  decide

/-- C5 (amended): when `a` and `b` do not intersect, `subtract(a,b)` still
covers every point of `a` and none of its rectangles overlaps `b` (and the
result is empty when `a` is empty), but the result need not be exactly `{a}`:
a strip may extend beyond `a` when `b` is displaced past `a`'s edge. -/
theorem subtract_disjoint_input (a b : Rect)
    (hd : (a.andSelf b).isEmpty = true) :
    (∀ x y : Int, a.Contains x y → (Region.subtract a b).Covers x y) ∧
    (∀ r ∈ (Region.subtract a b).rects, ∀ x y : Int,
      ¬ (r.Contains x y ∧ b.Contains x y)) ∧
    (a.isEmpty = true → (Region.subtract a b).rects = []) := by
  refine ⟨fun x y h => ?_, fun r hr x y => subtract_disjoint_rhs a b r hr x y,
    fun h => subtract_of_lhs_empty a b h⟩
  rcases subtract_covers a b x y h with hc | hc
  · exact absurd hc (not_contains_of_isEmpty _ hd x y)
  · exact hc

/-- Witness for `subtract_disjoint_input` at the disjoint pair of the
counterexample, evaluated at the point `(5,5)` of `a`. -/
theorem subtract_disjoint_input_witness :
    ((Rect.andSelf ⟨0, 0, 10, 10⟩ ⟨0, 20, 10, 30⟩).isEmpty = true) ∧
      (Region.subtract ⟨0, 0, 10, 10⟩ ⟨0, 20, 10, 30⟩).Covers 5 5 :=
  ⟨by decide,
    (subtract_disjoint_input ⟨0, 0, 10, 10⟩ ⟨0, 20, 10, 30⟩ (by decide)).1 5 5
      (by decide)⟩

/-- C6: the subtraction writes at most four rectangles, so the region count
stays between 0 and 4 and never exceeds the fixed 4-slot storage array. -/
theorem subtract_count_bounded (lhs rhs : Rect) :
    0 ≤ (Region.subtract lhs rhs).count ∧ (Region.subtract lhs rhs).count ≤ 4 ∧
      (Region.subtract lhs rhs).rects.length ≤ 4 := by
  have h := subtract_length_le_four lhs rhs
  refine ⟨by simp [Region.count], ?_, h⟩
  simp only [Region.count]
  exact_mod_cast h

end FGL

namespace FGL

theorem memcpy_zero (dst src : Mem) (d s : Int) :
    memcpy dst src d s 0 = dst := by
  funext a
  simp only [memcpy]
  rw [if_neg (by omega)]

theorem memcpy_split (dst src : Mem) (d s : Int) (n m : Nat) :
    memcpy dst src d s (n + m) =
      memcpy (memcpy dst src d s n) src (d + n) (s + n) m := by
  funext a
  simp only [memcpy, Nat.cast_add]
  split_ifs <;> first | rfl | omega | (congr 1; omega)

theorem memcpy_spec (dst src : Mem) (d s : Int) (n : Nat) (a : Int)
    (h : memcpy dst src d s n a ≠ dst a) :
    ∃ t : Nat, t < n ∧ a = d + t ∧ memcpy dst src d s n a = src (s + t) := by
  simp only [memcpy] at h ⊢
  split_ifs at h ⊢ with hc
  · exact ⟨(a - d).toNat, by omega, by omega, by congr 1; omega⟩
  · exact absurd rfl h

/-- Collapsing a sequence of `h` row copies whose pitch equals the row byte
width into one contiguous copy of `size * h` bytes. -/
theorem copyRows_collapse (src : Mem) (size : Nat) (h : Nat) :
    ∀ (d s : Int) (dst : Mem),
      memcpy dst src d s (size * h) =
        copyRows src size (size : Int) (size : Int) h d s dst := by
  induction h with
  | zero => intro d s dst; rw [Nat.mul_zero, memcpy_zero]; rfl
  | succ n ih =>
    intro d s dst
    have hsz : size * (n + 1) = size + size * n := by ring
    rw [hsz, memcpy_split, ih (d + size) (s + size) (memcpy dst src d s size)]
    rfl

/-- Each byte changed by the row loop lies in some row `j < h` at offset
`t < size`, and holds the corresponding source byte. -/
theorem copyRows_spec (src : Mem) (size : Nat) (dbpr sbpr : Int) :
    ∀ (h : Nat) (d s : Int) (dst : Mem) (a : Int),
      copyRows src size dbpr sbpr h d s dst a ≠ dst a →
      ∃ j : Nat, j < h ∧ ∃ t : Nat, t < size ∧
        a = d + j * dbpr + t ∧
        copyRows src size dbpr sbpr h d s dst a = src (s + j * sbpr + t) := by
  intro h
  induction h with
  | zero => intro d s dst a ha; exact absurd rfl ha
  | succ n ih =>
    intro d s dst a ha
    rw [copyRows] at ha ⊢
    by_cases hm :
        copyRows src size dbpr sbpr n (d + dbpr) (s + sbpr)
          (memcpy dst src d s size) a = memcpy dst src d s size a
    · rw [hm] at ha ⊢
      obtain ⟨t, ht, hat, hv⟩ := memcpy_spec dst src d s size a ha
      exact ⟨0, by omega, t, ht, by rw [hat]; push_cast; ring,
        by rw [hv]; congr 1; push_cast; ring⟩
    · obtain ⟨j, hj, t, ht, hat, hv⟩ :=
        ih (d + dbpr) (s + sbpr) (memcpy dst src d s size) a hm
      refine ⟨j + 1, by omega, t, ht, ?_, ?_⟩
      · rw [hat]; push_cast; ring
      · rw [hv]; congr 1; push_cast; ring

/-- The collapse optimization of `copyRect` never changes the result: it
always equals the row-by-row reference copy. -/
theorem copyRect_eq_rowByRow (bpp : Nat) (dstStride srcStride : Int)
    (src : Mem) (r : Rect) (dst : Mem) :
    copyRect bpp dstStride srcStride src r dst =
      copyRectRowByRow bpp dstStride srcStride src r dst := by
  unfold copyRect copyRectRowByRow
  dsimp only
  split_ifs with h1 h2
  · rfl
  · obtain ⟨hd, hs⟩ := h2
    rw [hd, ← hs]
    simp only [copyRows]
    exact copyRows_collapse src _ _ _ _ dst
  · rfl

end FGL

namespace FGL

/-- Every byte changed by the row-by-row copy lies inside the rectangle's
destination byte range and holds a source byte taken from the rectangle's
source byte range. -/
theorem copyRectRowByRow_bounds (bpp : Nat) (dstStride srcStride : Int)
    (src : Mem) (r : Rect) (dst : Mem) (a : Int)
    (h : copyRectRowByRow bpp dstStride srcStride src r dst a ≠ dst a) :
    InRectBytes dstStride bpp r a ∧
      ∃ b : Int, InRectBytes srcStride bpp r b ∧
        copyRectRowByRow bpp dstStride srcStride src r dst a = src b := by
  unfold copyRectRowByRow at h ⊢
  dsimp only at h ⊢
  split_ifs at h ⊢ with hz
  · exact absurd rfl h
  · obtain ⟨j, hj, t, ht, hat, hv⟩ :=
      copyRows_spec src _ _ _ _ _ _ dst a h
    rw [not_or] at hz
    have hw : 0 < r.right - r.left := by omega
    have hh : 0 < r.bottom - r.top := by omega
    have hbpp : 0 < bpp := by
      rcases Nat.eq_zero_or_pos bpp with h0 | h0
      · rw [h0, Nat.mul_zero] at ht; omega
      · exact h0
    obtain ⟨q, k, hk, hqk, hq⟩ :
        ∃ q k : Nat, k < bpp ∧ t = bpp * q + k ∧
          q < (r.right - r.left).toNat := by
      refine ⟨t / bpp, t % bpp, Nat.mod_lt t hbpp,
        (Nat.div_add_mod t bpp).symm, ?_⟩
      refine Nat.div_lt_of_lt_mul ?_
      rw [Nat.mul_comm] at ht
      exact ht
    have htI : (t : Int) = (bpp : Int) * q + k := by exact_mod_cast hqk
    refine ⟨⟨r.left + (q : Int), r.top + (j : Int), (k : Int),
        by omega, by omega, by omega, by omega, by omega, by omega, ?_⟩,
      (r.left + (q : Int) + srcStride * (r.top + (j : Int))) * bpp + (k : Int),
      ⟨r.left + (q : Int), r.top + (j : Int), (k : Int),
        by omega, by omega, by omega, by omega, by omega, by omega, rfl⟩, ?_⟩
    · rw [hat, htI]; ring
    · rw [hv]; congr 1; rw [htI]; ring

/-- C9: in the manual fallback of `copyBlt`, zero-area rectangles are skipped
with the destination memory unchanged; the collapse of the per-row loop into a
single contiguous copy (taken when both byte pitches agree and the
rectangle's byte width equals the pitch) writes exactly the bytes the
row-by-row copy would write; and every changed byte lies inside the
rectangle's destination bounds and holds a byte read from inside the
rectangle's source bounds. -/
theorem copyBlt_manual_fallback (bpp : Nat) (dstStride srcStride : Int)
    (src dst : Mem) (r : Rect) :
    (r.right - r.left ≤ 0 ∨ r.bottom - r.top ≤ 0 →
      copyRect bpp dstStride srcStride src r dst = dst) ∧
    copyRect bpp dstStride srcStride src r dst =
      copyRectRowByRow bpp dstStride srcStride src r dst ∧
    (∀ a : Int, copyRect bpp dstStride srcStride src r dst a ≠ dst a →
      InRectBytes dstStride bpp r a ∧
        ∃ b : Int, InRectBytes srcStride bpp r b ∧
          copyRect bpp dstStride srcStride src r dst a = src b) := by
  refine ⟨fun hz => ?_, copyRect_eq_rowByRow bpp dstStride srcStride src r dst,
    fun a ha => ?_⟩
  · unfold copyRect
    dsimp only
    rw [if_pos hz]
  · rw [copyRect_eq_rowByRow] at ha ⊢
    exact copyRectRowByRow_bounds bpp dstStride srcStride src r dst a ha

/-- Witness for `copyBlt_manual_fallback`: a zero-area rectangle leaves the
destination untouched. -/
theorem copyBlt_manual_fallback_witness :
    (((3 : Int) - 3 ≤ 0 ∨ (5 : Int) - 0 ≤ 0) ∧
      copyRect 2 16 16 (fun _ => 0) ⟨3, 0, 3, 5⟩ (fun _ => 7) =
        (fun _ => 7)) :=
  ⟨Or.inl (by decide),
    (copyBlt_manual_fallback 2 16 16 (fun _ => 0) (fun _ => 7) ⟨3, 0, 3, 5⟩).1
      (Or.inl (by decide))⟩

end FGL

namespace FGL

theorem dirtyPhase_buffer_fields (l : Bool) (buf : NativeBuffer)
    (s : WindowSurfaceState) :
    (dirtyPhase l buf s).1.width = s.width ∧
    (dirtyPhase l buf s).1.height = s.height ∧
    (dirtyPhase l buf s).1.depth = s.depth ∧
    (dirtyPhase l buf s).1.bits = s.bits ∧
    (dirtyPhase l buf s).1.buffer = s.buffer ∧
    (dirtyPhase l buf s).1.previousBuffer = s.previousBuffer := by
  unfold dirtyPhase
  split_ifs <;> simp

theorem dirtyPhase_oldDirty (l : Bool) (buf : NativeBuffer)
    (s : WindowSurfaceState) (hd : s.dirtyRegion.isEmpty = false) :
    (dirtyPhase l buf s).1.oldDirtyRegion =
      s.dirtyRegion.andSelf (Rect.ofSize buf.width buf.height) := by
  unfold dirtyPhase
  rw [hd]
  rfl

theorem dirtyPhase_events_none (l : Bool) (buf : NativeBuffer)
    (s : WindowSurfaceState) (hp : s.previousBuffer = none) :
    (dirtyPhase l buf s).2 = [] := by
  unfold dirtyPhase
  rw [hp]
  split_ifs <;> rfl

theorem dirtyPhase_events_eq (buf : NativeBuffer) (s : WindowSurfaceState)
    (hd : s.dirtyRegion.isEmpty = false) (p : NativeBuffer)
    (hp : s.previousBuffer = some p) :
    (dirtyPhase true buf s).2 =
      (if (Region.subtract s.oldDirtyRegion
            (s.dirtyRegion.andSelf (Rect.ofSize buf.width buf.height))).isEmpty
       then []
       else [Ev.pin p.id,
             Ev.copy p.id buf.id (Region.subtract s.oldDirtyRegion
               (s.dirtyRegion.andSelf (Rect.ofSize buf.width buf.height))),
             Ev.unpin p.id]) := by
  unfold dirtyPhase
  rw [hd, hp]
  by_cases hc : (Region.subtract s.oldDirtyRegion
      (s.dirtyRegion.andSelf (Rect.ofSize buf.width buf.height))).isEmpty <;>
    simp [hc]

theorem dirtyPhase_copy_mem (buf : NativeBuffer) (s : WindowSurfaceState)
    (hd : s.dirtyRegion.isEmpty = false) (sid did : Nat) (reg : Region) :
    (Ev.copy sid did reg ∈ (dirtyPhase true buf s).2 ↔
      ∃ p, s.previousBuffer = some p ∧ sid = p.id ∧ did = buf.id ∧
        reg = Region.subtract s.oldDirtyRegion
          (s.dirtyRegion.andSelf (Rect.ofSize buf.width buf.height)) ∧
        reg.isEmpty = false) := by
  cases hp : s.previousBuffer with
  | none => rw [dirtyPhase_events_none true buf s hp]; simp
  | some p =>
    rw [dirtyPhase_events_eq buf s hd p hp]
    by_cases hc : (Region.subtract s.oldDirtyRegion
        (s.dirtyRegion.andSelf (Rect.ofSize buf.width buf.height))).isEmpty
    · rw [if_pos hc]
      simp only [List.not_mem_nil, false_iff, not_exists]
      rintro p' ⟨hp', h1, h2, hreg, hne⟩
      rw [hreg, hc] at hne
      cases hne
    · rw [if_neg hc]
      rw [Bool.not_eq_true] at hc
      constructor
      · intro h
        simp only [List.mem_cons, List.not_mem_nil, or_false] at h
        rcases h with h | h | h
        · cases h
        · rw [Ev.copy.injEq] at h
          exact ⟨p, rfl, h.1, h.2.1, h.2.2, by rw [h.2.2]; exact hc⟩
        · cases h
      · rintro ⟨p', hp', rfl, rfl, rfl, -⟩
        rw [Option.some.injEq] at hp'
        rw [← hp']
        exact List.Mem.tail _ (List.Mem.head _)

theorem releasePrevPhase_fields (s : WindowSurfaceState) :
    (releasePrevPhase s).1.width = s.width ∧
    (releasePrevPhase s).1.height = s.height ∧
    (releasePrevPhase s).1.depth = s.depth ∧
    (releasePrevPhase s).1.bits = s.bits ∧
    (releasePrevPhase s).1.buffer = s.buffer ∧
    (releasePrevPhase s).1.oldDirtyRegion = s.oldDirtyRegion ∧
    (releasePrevPhase s).1.previousBuffer = none := by
  unfold releasePrevPhase
  cases hp : s.previousBuffer <;> simp [hp]

theorem releasePrevPhase_no_copy (s : WindowSurfaceState) (sid did : Nat)
    (reg : Region) : Ev.copy sid did reg ∉ (releasePrevPhase s).2 := by
  unfold releasePrevPhase
  cases s.previousBuffer <;> simp

theorem reallocDepthPhase_no_copy (a : Bool) (nb : NativeBuffer)
    (s : WindowSurfaceState) (sid did : Nat) (reg : Region) :
    Ev.copy sid did reg ∉ (reallocDepthPhase a nb s).2.1 := by
  unfold reallocDepthPhase
  by_cases h1 : nb.width ≠ s.width ∨ nb.height ≠ s.height <;>
    by_cases h2 : s.depth.data <;> simp [h1, h2]

theorem reallocDepthPhase_dirty_fields (a : Bool) (nb : NativeBuffer)
    (s : WindowSurfaceState) :
    (reallocDepthPhase a nb s).1.oldDirtyRegion = s.oldDirtyRegion ∧
    (reallocDepthPhase a nb s).1.dirtyRegion = s.dirtyRegion ∧
    (reallocDepthPhase a nb s).1.bits = s.bits ∧
    (reallocDepthPhase a nb s).1.buffer = s.buffer ∧
    (reallocDepthPhase a nb s).1.previousBuffer = s.previousBuffer := by
  unfold reallocDepthPhase
  by_cases h1 : nb.width ≠ s.width ∨ nb.height ≠ s.height <;>
    by_cases h2 : s.depth.data <;> simp [h1, h2]

/-- C10: calling `swapBuffers` with no currently pinned buffer fails with
`EGL_BAD_ACCESS`, returns `EGL_FALSE`, performs no buffer operation and
leaves every surface field unchanged. -/
theorem swapBuffers_without_buffer (env : SwapEnv) (s : WindowSurfaceState)
    (hb : s.buffer = none) :
    swapBuffers env s = ⟨s, [], some EGL_BAD_ACCESS, false⟩ := by
  unfold swapBuffers
  rw [hb]

/-- Witness for `swapBuffers_without_buffer` on a fresh surface. -/
theorem swapBuffers_without_buffer_witness :
    ((initialState 64 64 0 ⟨0, 0, 0, 0⟩ ⟨0, 0, 0, 0⟩).buffer = none) ∧
      swapBuffers ⟨⟨0, 64, 64, 64⟩, true, true, true⟩
          (initialState 64 64 0 ⟨0, 0, 0, 0⟩ ⟨0, 0, 0, 0⟩) =
        ⟨initialState 64 64 0 ⟨0, 0, 0, 0⟩ ⟨0, 0, 0, 0⟩, [],
          some EGL_BAD_ACCESS, false⟩ :=
  ⟨rfl, swapBuffers_without_buffer ⟨⟨0, 64, 64, 64⟩, true, true, true⟩
    (initialState 64 64 0 ⟨0, 0, 0, 0⟩ ⟨0, 0, 0, 0⟩) rfl⟩

/-- C8: contrary to the claim, a pbuffer constructed with an unrecognized
pixel format (here 99) does not leave the color plane unallocated: the
`pbuffer.data = 0` store in the default switch case is dead, the constructor
unconditionally allocates `w*h` bytes, and with an allocator that succeeds
`initCheck()` reports true. -/
theorem pbuffer_unsupported_format_allocates :
    (mkPbufferSurface (fun _ => true) 2 2 99 0).initCheck = true ∧
      (mkPbufferSurface (fun _ => true) 2 2 99 0).pbuffer.data = true := by
  constructor <;> rfl

end FGL

namespace FGL

theorem releasePrevPhase_events (s : WindowSurfaceState) :
    (releasePrevPhase s).2 = prevDecEvents s.previousBuffer := by
  unfold releasePrevPhase prevDecEvents
  cases s.previousBuffer <;> rfl

theorem dirtyPhase_events_cases (l : Bool) (buf : NativeBuffer)
    (s : WindowSurfaceState) :
    (dirtyPhase l buf s).2 = [] ∨
      ∃ p reg, s.previousBuffer = some p ∧
        (dirtyPhase l buf s).2 =
          [Ev.pin p.id, Ev.copy p.id buf.id reg, Ev.unpin p.id] := by
  unfold dirtyPhase
  cases hp : s.previousBuffer with
  | none => dsimp only; split_ifs <;> simp
  | some p =>
    dsimp only
    split_ifs <;> first
      | (left; rfl)
      | (right; exact ⟨p, _, rfl, rfl⟩)

theorem swapBuffers_oldDirty (env : SwapEnv) (s : WindowSurfaceState)
    (buf : NativeBuffer) (hb : s.buffer = some buf) :
    (swapBuffers env s).state.oldDirtyRegion =
      (dirtyPhase env.lockPrevOk buf s).1.oldDirtyRegion := by
  unfold swapBuffers
  rw [hb]
  dsimp only
  split_ifs <;>
    simp [(reallocDepthPhase_dirty_fields _ _ _).1,
      (releasePrevPhase_fields _).2.2.2.2.2.1]

theorem swapBuffers_copy_mem (env : SwapEnv) (s : WindowSurfaceState)
    (buf : NativeBuffer) (hb : s.buffer = some buf) (sid did : Nat)
    (reg : Region) :
    (Ev.copy sid did reg ∈ (swapBuffers env s).events ↔
      Ev.copy sid did reg ∈ (dirtyPhase env.lockPrevOk buf s).2) := by
  unfold swapBuffers
  rw [hb]
  dsimp only
  split_ifs <;>
    simp [List.mem_append, releasePrevPhase_no_copy, reallocDepthPhase_no_copy]

/-- C3: when the requested dirty region is non-empty, `swapBuffers` clips it
to the current buffer's bounds and stores the clipped rectangle as the new
`oldDirtyRegion`; a copy-back event occurs exactly for a previous buffer and
the non-empty region `subtract(oldDirtyRegion, clippedDirtyRegion)`; and for
the spec's concrete instance, previous region (0,0,100,100) with current
update (0,0,50,100) yields exactly {(50,0,100,100)}. -/
theorem swapBuffers_copyback (env : SwapEnv) (s : WindowSurfaceState)
    (buf : NativeBuffer) (hb : s.buffer = some buf)
    (hpl : env.lockPrevOk = true) (hd : s.dirtyRegion.isEmpty = false) :
    ((swapBuffers env s).state.oldDirtyRegion =
      s.dirtyRegion.andSelf (Rect.ofSize buf.width buf.height)) ∧
    (∀ sid did reg, Ev.copy sid did reg ∈ (swapBuffers env s).events ↔
      ∃ p, s.previousBuffer = some p ∧ sid = p.id ∧ did = buf.id ∧
        reg = Region.subtract s.oldDirtyRegion
          (s.dirtyRegion.andSelf (Rect.ofSize buf.width buf.height)) ∧
        reg.isEmpty = false) ∧
    (Region.subtract ⟨0, 0, 100, 100⟩ ⟨0, 0, 50, 100⟩).rects =
      [⟨50, 0, 100, 100⟩] := by
  refine ⟨?_, fun sid did reg => ?_, by decide⟩
  · rw [swapBuffers_oldDirty env s buf hb, dirtyPhase_oldDirty _ buf s hd]
  · rw [swapBuffers_copy_mem env s buf hb, hpl]
    exact dirtyPhase_copy_mem buf s hd sid did reg

/-- Witness for `swapBuffers_copyback`: previous region (0,0,100,100),
current update (0,0,50,100), within a 100×100 buffer. -/
theorem swapBuffers_copyback_witness :
    (({ buffer := some ⟨1, 100, 100, 100⟩,
        previousBuffer := some ⟨0, 100, 100, 100⟩,
        width := 100, height := 100, bits := true,
        depth := ⟨0, 0, 0, 0, false⟩,
        dirtyRegion := ⟨0, 0, 50, 100⟩, oldDirtyRegion := ⟨0, 0, 100, 100⟩ }
          : WindowSurfaceState).buffer = some ⟨1, 100, 100, 100⟩ ∧
      (⟨⟨2, 100, 100, 100⟩, true, true, true⟩ : SwapEnv).lockPrevOk = true ∧
      ((⟨0, 0, 50, 100⟩ : Rect).isEmpty = false)) ∧
    ((swapBuffers ⟨⟨2, 100, 100, 100⟩, true, true, true⟩
        { buffer := some ⟨1, 100, 100, 100⟩,
          previousBuffer := some ⟨0, 100, 100, 100⟩,
          width := 100, height := 100, bits := true,
          depth := ⟨0, 0, 0, 0, false⟩,
          dirtyRegion := ⟨0, 0, 50, 100⟩,
          oldDirtyRegion := ⟨0, 0, 100, 100⟩ }).state.oldDirtyRegion =
      Rect.andSelf ⟨0, 0, 50, 100⟩ (Rect.ofSize 100 100)) :=
  ⟨⟨rfl, rfl, by decide⟩,
    (swapBuffers_copyback ⟨⟨2, 100, 100, 100⟩, true, true, true⟩
      { buffer := some ⟨1, 100, 100, 100⟩,
        previousBuffer := some ⟨0, 100, 100, 100⟩,
        width := 100, height := 100, bits := true,
        depth := ⟨0, 0, 0, 0, false⟩,
        dirtyRegion := ⟨0, 0, 50, 100⟩, oldDirtyRegion := ⟨0, 0, 100, 100⟩ }
      ⟨1, 100, 100, 100⟩ rfl rfl (by decide)).1⟩

end FGL

namespace FGL

theorem reallocDepthPhase_changed (a : Bool) (nb : NativeBuffer)
    (s : WindowSurfaceState)
    (hdim : nb.width ≠ s.width ∨ nb.height ≠ s.height)
    (hdata : s.depth.data = true) :
    reallocDepthPhase a nb s =
      ({ s with
          width := nb.width
          height := nb.height
          depth := { width := nb.width, height := nb.height,
                     stride := nb.stride, format := s.depth.format,
                     data := a } },
       [Ev.freeDepth, Ev.allocDepth], !a) := by
  unfold reallocDepthPhase
  rw [if_pos hdim]
  have hd1 : ({ s with width := nb.width, height := nb.height }
      : WindowSurfaceState).depth.data = true := hdata
  rw [if_pos hd1]

theorem dirtyPhase_no_incRef (l : Bool) (buf : NativeBuffer)
    (s : WindowSurfaceState) (b : Nat) :
    Ev.incRef b ∉ (dirtyPhase l buf s).2 := by
  rcases dirtyPhase_events_cases l buf s with h | ⟨p, reg, _, h⟩ <;>
    rw [h] <;> simp

theorem prevDecEvents_no_incRef (o : Option NativeBuffer) (b : Nat) :
    Ev.incRef b ∉ prevDecEvents o := by
  unfold prevDecEvents
  cases o <;> simp

/-- C7: when the dequeued buffer's dimensions differ from the recorded ones
and a depth plane is allocated, `swapBuffers` frees and reallocates the depth
plane at the new dimensions and updates the recorded width/height; if the
reallocation fails it returns `EGL_FALSE` with `EGL_BAD_ALLOC`, leaves the
pin state unchanged and performs nothing further (in particular takes no
buffer reference); if it succeeds (and the new buffer pins), the call
succeeds. -/
theorem swapBuffers_resize (env : SwapEnv) (s : WindowSurfaceState)
    (buf : NativeBuffer) (hb : s.buffer = some buf)
    (hdim : env.dequeued.width ≠ s.width ∨ env.dequeued.height ≠ s.height)
    (hdata : s.depth.data = true) :
    ((swapBuffers env s).state.width = env.dequeued.width ∧
     (swapBuffers env s).state.height = env.dequeued.height) ∧
    ((swapBuffers env s).state.depth.width = env.dequeued.width ∧
     (swapBuffers env s).state.depth.height = env.dequeued.height ∧
     (swapBuffers env s).state.depth.stride = env.dequeued.stride ∧
     (swapBuffers env s).state.depth.data = env.allocOk) ∧
    (∃ pre post, (swapBuffers env s).events =
      pre ++ [Ev.freeDepth, Ev.allocDepth] ++ post) ∧
    (env.allocOk = false →
      (swapBuffers env s).ok = false ∧
      (swapBuffers env s).err = some EGL_BAD_ALLOC ∧
      (swapBuffers env s).state.bits = s.bits ∧
      ∀ b, Ev.incRef b ∉ (swapBuffers env s).events) ∧
    (env.allocOk = true → env.lockNewOk = true →
      (swapBuffers env s).ok = true ∧ (swapBuffers env s).err = none) := by
  unfold swapBuffers
  rw [hb]
  dsimp only
  have hfw := dirtyPhase_buffer_fields env.lockPrevOk buf s
  have hfr := releasePrevPhase_fields (dirtyPhase env.lockPrevOk buf s).1
  have hdim3 : env.dequeued.width ≠
      ({ (releasePrevPhase (dirtyPhase env.lockPrevOk buf s).1).1 with
          previousBuffer := some buf
          buffer := some env.dequeued } : WindowSurfaceState).width ∨
      env.dequeued.height ≠
      ({ (releasePrevPhase (dirtyPhase env.lockPrevOk buf s).1).1 with
          previousBuffer := some buf
          buffer := some env.dequeued } : WindowSurfaceState).height := by
    simpa [hfr.1, hfr.2.1, hfw.1, hfw.2.1] using hdim
  have hdata3 : ({ (releasePrevPhase (dirtyPhase env.lockPrevOk buf s).1).1 with
          previousBuffer := some buf
          buffer := some env.dequeued } : WindowSurfaceState).depth.data = true := by
    simpa [hfr.2.2.1, hfw.2.2.1] using hdata
  rw [reallocDepthPhase_changed env.allocOk env.dequeued _ hdim3 hdata3]
  dsimp only
  rw [hfr.2.2.1, hfw.2.2.1]
  cases ha : env.allocOk with
  | false =>
    rw [if_pos (by decide : ((!false : Bool) = true))]
    refine ⟨⟨rfl, rfl⟩, ⟨rfl, rfl, rfl, rfl⟩,
      ⟨(dirtyPhase env.lockPrevOk buf s).2 ++
        (releasePrevPhase (dirtyPhase env.lockPrevOk buf s).1).2 ++
        [Ev.unpin buf.id, Ev.queue (some buf.id),
         Ev.dequeue env.dequeued.id, Ev.lockWin env.dequeued.id], [],
        by simp⟩,
      fun _ => ⟨rfl, rfl, by rw [hfr.2.2.2.1, hfw.2.2.2.1], fun b => ?_⟩,
      fun hcontra => absurd hcontra (by simp)⟩
    rw [releasePrevPhase_events]
    have h1 := dirtyPhase_no_incRef env.lockPrevOk buf s b
    have h2 := prevDecEvents_no_incRef
      (dirtyPhase env.lockPrevOk buf s).1.previousBuffer b
    simp [h1, h2]
  | true =>
    rw [if_neg (by decide : ¬((!true : Bool) = true))]
    cases hl : env.lockNewOk with
    | false =>
      rw [if_neg (by decide : ¬((false : Bool) = true))]
      refine ⟨⟨rfl, rfl⟩, ⟨rfl, rfl, rfl, rfl⟩,
        ⟨(dirtyPhase env.lockPrevOk buf s).2 ++
          (releasePrevPhase (dirtyPhase env.lockPrevOk buf s).1).2 ++
          [Ev.unpin buf.id, Ev.queue (some buf.id),
           Ev.dequeue env.dequeued.id, Ev.lockWin env.dequeued.id],
          [Ev.incRef env.dequeued.id], by simp⟩,
        fun hcontra => absurd hcontra (by simp),
        fun _ hcontra => absurd hcontra (by simp)⟩
    | true =>
      rw [if_pos (by decide : ((true : Bool) = true))]
      refine ⟨⟨rfl, rfl⟩, ⟨rfl, rfl, rfl, rfl⟩,
        ⟨(dirtyPhase env.lockPrevOk buf s).2 ++
          (releasePrevPhase (dirtyPhase env.lockPrevOk buf s).1).2 ++
          [Ev.unpin buf.id, Ev.queue (some buf.id),
           Ev.dequeue env.dequeued.id, Ev.lockWin env.dequeued.id],
          [Ev.incRef env.dequeued.id, Ev.pin env.dequeued.id], by simp⟩,
        fun hcontra => absurd hcontra (by simp),
        fun _ _ => ⟨rfl, rfl⟩⟩

end FGL

namespace FGL

/-- Witness for `swapBuffers_resize`: a 50×50 surface with a depth plane
receives a 60×60 buffer and the depth reallocation fails. -/
theorem swapBuffers_resize_witness :
    (({ buffer := some ⟨0, 50, 50, 50⟩, previousBuffer := none,
        width := 50, height := 50, bits := true,
        depth := ⟨50, 50, 50, 7, true⟩,
        dirtyRegion := ⟨0, 0, 0, 0⟩, oldDirtyRegion := ⟨0, 0, 0, 0⟩ }
          : WindowSurfaceState).buffer = some ⟨0, 50, 50, 50⟩ ∧
      ((60 : Int) ≠ 50 ∨ (60 : Int) ≠ 50) ∧
      (⟨50, 50, 50, 7, true⟩ : FGLPlane).data = true ∧
      (⟨⟨1, 60, 60, 60⟩, true, false, true⟩ : SwapEnv).allocOk = false) ∧
    ((swapBuffers ⟨⟨1, 60, 60, 60⟩, true, false, true⟩
        { buffer := some ⟨0, 50, 50, 50⟩, previousBuffer := none,
          width := 50, height := 50, bits := true,
          depth := ⟨50, 50, 50, 7, true⟩,
          dirtyRegion := ⟨0, 0, 0, 0⟩,
          oldDirtyRegion := ⟨0, 0, 0, 0⟩ }).ok = false ∧
      (swapBuffers ⟨⟨1, 60, 60, 60⟩, true, false, true⟩
        { buffer := some ⟨0, 50, 50, 50⟩, previousBuffer := none,
          width := 50, height := 50, bits := true,
          depth := ⟨50, 50, 50, 7, true⟩,
          dirtyRegion := ⟨0, 0, 0, 0⟩,
          oldDirtyRegion := ⟨0, 0, 0, 0⟩ }).err = some EGL_BAD_ALLOC ∧
      (swapBuffers ⟨⟨1, 60, 60, 60⟩, true, false, true⟩
        { buffer := some ⟨0, 50, 50, 50⟩, previousBuffer := none,
          width := 50, height := 50, bits := true,
          depth := ⟨50, 50, 50, 7, true⟩,
          dirtyRegion := ⟨0, 0, 0, 0⟩,
          oldDirtyRegion := ⟨0, 0, 0, 0⟩ }).state.bits =
        ({ buffer := some ⟨0, 50, 50, 50⟩, previousBuffer := none,
           width := 50, height := 50, bits := true,
           depth := ⟨50, 50, 50, 7, true⟩,
           dirtyRegion := ⟨0, 0, 0, 0⟩,
           oldDirtyRegion := ⟨0, 0, 0, 0⟩ } : WindowSurfaceState).bits ∧
      ∀ b, Ev.incRef b ∉ (swapBuffers ⟨⟨1, 60, 60, 60⟩, true, false, true⟩
        { buffer := some ⟨0, 50, 50, 50⟩, previousBuffer := none,
          width := 50, height := 50, bits := true,
          depth := ⟨50, 50, 50, 7, true⟩,
          dirtyRegion := ⟨0, 0, 0, 0⟩,
          oldDirtyRegion := ⟨0, 0, 0, 0⟩ }).events) :=
  ⟨⟨rfl, Or.inl (by decide), rfl, rfl⟩,
    (swapBuffers_resize ⟨⟨1, 60, 60, 60⟩, true, false, true⟩
      { buffer := some ⟨0, 50, 50, 50⟩, previousBuffer := none,
        width := 50, height := 50, bits := true,
        depth := ⟨50, 50, 50, 7, true⟩,
        dirtyRegion := ⟨0, 0, 0, 0⟩, oldDirtyRegion := ⟨0, 0, 0, 0⟩ }
      ⟨0, 50, 50, 50⟩ rfl (Or.inl (by decide)) rfl).2.2.2.1 rfl⟩

end FGL

namespace FGL

theorem lockState_append (a b : List Ev) (m : Nat → Nat) :
    lockState (a ++ b) m = lockState b (lockState a m) := by
  induction a generalizing m with
  | nil => rfl
  | cons e t ih => cases e <;> simp [lockState, ih]

theorem checkQueueSafe_append (a b : List Ev) (m : Nat → Nat) :
    checkQueueSafe (a ++ b) m =
      (checkQueueSafe a m && checkQueueSafe b (lockState a m)) := by
  induction a generalizing m with
  | nil => rfl
  | cons e t ih =>
    cases e with
    | queue o =>
      cases o <;> simp [checkQueueSafe, lockState, ih, Bool.and_assoc]
    | _ => simp [checkQueueSafe, lockState, ih]

theorem lockState_congr (T : List Ev) (m m' : Nat → Nat)
    (h : ∀ x, m x = m' x) : ∀ x, lockState T m x = lockState T m' x := by
  induction T generalizing m m' with
  | nil => exact h
  | cons e t ih =>
    cases e <;>
      first
        | exact ih m m' h
        | (rename_i b
           refine ih _ _ (fun x => ?_)
           by_cases hx : x = b <;> simp [lockState, hx, h b, h x])

theorem checkQueueSafe_congr (T : List Ev) (m m' : Nat → Nat)
    (h : ∀ x, m x = m' x) : checkQueueSafe T m = checkQueueSafe T m' := by
  induction T generalizing m m' with
  | nil => rfl
  | cons e t ih =>
    cases e with
    | queue o =>
      cases o with
      | none => exact ih m m' h
      | some b => simp [checkQueueSafe, h b, ih m m' h]
    | pin b =>
      refine ih _ _ (fun x => ?_)
      by_cases hx : x = b <;> simp [hx, h b, h x]
    | unpin b =>
      refine ih _ _ (fun x => ?_)
      by_cases hx : x = b <;> simp [hx, h b, h x]
    | _ => exact ih m m' h

end FGL

namespace FGL

theorem reallocDepthPhase_ok_events (nb : NativeBuffer)
    (s : WindowSurfaceState) :
    (reallocDepthPhase true nb s).2.2 = false ∧
      ((reallocDepthPhase true nb s).2.1 = [] ∨
        (reallocDepthPhase true nb s).2.1 = [Ev.freeDepth, Ev.allocDepth]) := by
  unfold reallocDepthPhase
  by_cases h1 : nb.width ≠ s.width ∨ nb.height ≠ s.height <;>
    by_cases h2 : s.depth.data <;> simp [h1, h2]

/-- Shape of one fully successful `swapBuffers` call: it succeeds, pins the
dequeued buffer, promotes the old buffer to previous, and its event trace is
an optional copy-back triple, the previous-buffer release, the fixed
unpin/queue/dequeue/window-lock block, optional depth events, and the
reference/pin on the new buffer. -/
theorem swapBuffers_success (nb : NativeBuffer) (s : WindowSurfaceState)
    (B : NativeBuffer) (hb : s.buffer = some B) :
    (swapBuffers ⟨nb, true, true, true⟩ s).ok = true ∧
    (swapBuffers ⟨nb, true, true, true⟩ s).state.buffer = some nb ∧
    (swapBuffers ⟨nb, true, true, true⟩ s).state.previousBuffer = some B ∧
    (swapBuffers ⟨nb, true, true, true⟩ s).state.bits = true ∧
    ∃ cp dep,
      (cp = [] ∨ ∃ p reg, s.previousBuffer = some p ∧
          cp = [Ev.pin p.id, Ev.copy p.id B.id reg, Ev.unpin p.id]) ∧
      (dep = [] ∨ dep = [Ev.freeDepth, Ev.allocDepth]) ∧
      (swapBuffers ⟨nb, true, true, true⟩ s).events =
        cp ++ prevDecEvents s.previousBuffer ++
          [Ev.unpin B.id, Ev.queue (some B.id),
           Ev.dequeue nb.id, Ev.lockWin nb.id] ++ dep ++
          [Ev.incRef nb.id, Ev.pin nb.id] := by
  unfold swapBuffers
  rw [hb]
  dsimp only
  have hre := reallocDepthPhase_ok_events nb
    ({ (releasePrevPhase (dirtyPhase true B s).1).1 with
        previousBuffer := some B
        buffer := some nb })
  rw [if_neg (by rw [hre.1]; decide), if_pos rfl]
  have hfw := dirtyPhase_buffer_fields true B s
  have hfr := releasePrevPhase_fields (dirtyPhase true B s).1
  have hre2 := reallocDepthPhase_dirty_fields true nb
    ({ (releasePrevPhase (dirtyPhase true B s).1).1 with
        previousBuffer := some B
        buffer := some nb })
  refine ⟨rfl, ?_, ?_, rfl, (dirtyPhase true B s).2,
    (reallocDepthPhase true nb
      ({ (releasePrevPhase (dirtyPhase true B s).1).1 with
          previousBuffer := some B
          buffer := some nb })).2.1,
    dirtyPhase_events_cases true B s, hre.2, ?_⟩
  · show (reallocDepthPhase true nb _).1.buffer = some nb
    rw [hre2.2.2.2.1]
  · show (reallocDepthPhase true nb _).1.previousBuffer = some B
    rw [hre2.2.2.2.2]
  · rw [releasePrevPhase_events, hfw.2.2.2.2.2]

end FGL

namespace FGL

/-- Trace properties of one successful swap's event list: exactly one
`incRef` (on the new buffer), the `decRef`s are exactly the previous-buffer
release, the single `queue` happens with the queued buffer unpinned, and the
pin count moves from the old buffer to the new one. -/
theorem step_trace (B nb : NativeBuffer) (pOpt : Option NativeBuffer)
    (cp dep evs : List Ev)
    (hcp : cp = [] ∨ ∃ p reg, pOpt = some p ∧
        cp = [Ev.pin p.id, Ev.copy p.id B.id reg, Ev.unpin p.id])
    (hdep : dep = [] ∨ dep = [Ev.freeDepth, Ev.allocDepth])
    (hevs : evs = cp ++ prevDecEvents pOpt ++
        [Ev.unpin B.id, Ev.queue (some B.id),
         Ev.dequeue nb.id, Ev.lockWin nb.id] ++ dep ++
        [Ev.incRef nb.id, Ev.pin nb.id])
    (hne : nb.id ≠ B.id) :
    (∀ id, evs.count (Ev.incRef id) = if nb.id = id then 1 else 0) ∧
    (∀ id, evs.count (Ev.decRef id) = prevContrib pOpt id) ∧
    checkQueueSafe evs (lockOne B.id) = true ∧
    (∀ x, lockState evs (lockOne B.id) x = lockOne nb.id x) := by
  subst hevs
  rcases hdep with rfl | rfl <;>
  · cases pOpt with
    | none =>
      rcases hcp with rfl | ⟨p, reg, hps, rfl⟩
      · refine ⟨fun id => ?_, fun id => ?_, ?_, fun x => ?_⟩ <;>
          simp [prevDecEvents, prevContrib, checkQueueSafe, lockState, lockOne,
            List.count_cons, List.count_nil, List.count_append] <;>
          split_ifs <;> simp_all
      · cases hps
    | some p0 =>
      rcases hcp with rfl | ⟨p, reg, hps, rfl⟩
      · refine ⟨fun id => ?_, fun id => ?_, ?_, fun x => ?_⟩ <;>
          simp [prevDecEvents, prevContrib, checkQueueSafe, lockState, lockOne,
            List.count_cons, List.count_nil, List.count_append] <;>
          split_ifs <;> simp_all
      · rw [Option.some.injEq] at hps
        subst hps
        refine ⟨fun id => ?_, fun id => ?_, ?_, fun x => ?_⟩ <;>
          simp [prevDecEvents, prevContrib, checkQueueSafe, lockState, lockOne,
            List.count_cons, List.count_nil, List.count_append] <;>
          split_ifs <;> simp_all

end FGL

namespace FGL

theorem connect_success (b0 : NativeBuffer) (s : WindowSurfaceState) :
    (connect ⟨some b0, true, true⟩ s).ok = true ∧
    (connect ⟨some b0, true, true⟩ s).state.buffer = some b0 ∧
    (connect ⟨some b0, true, true⟩ s).state.previousBuffer =
      s.previousBuffer ∧
    (connect ⟨some b0, true, true⟩ s).state.bits = true ∧
    ∃ dep, (dep = [] ∨ dep = [Ev.allocDepth]) ∧
      (connect ⟨some b0, true, true⟩ s).events =
        [Ev.dequeue b0.id] ++ dep ++
          [Ev.incRef b0.id, Ev.lockWin b0.id, Ev.pin b0.id] := by
  unfold connect
  dsimp only
  split_ifs <;>
    first
      | exact ⟨rfl, rfl, rfl, rfl, [Ev.allocDepth], Or.inr rfl, rfl⟩
      | exact ⟨rfl, rfl, rfl, rfl, [], Or.inl rfl, rfl⟩
      | simp_all

theorem connect_trace (b0 : NativeBuffer) (dep evs : List Ev)
    (hdep : dep = [] ∨ dep = [Ev.allocDepth])
    (hevs : evs = [Ev.dequeue b0.id] ++ dep ++
        [Ev.incRef b0.id, Ev.lockWin b0.id, Ev.pin b0.id]) :
    (∀ id, evs.count (Ev.incRef id) = if b0.id = id then 1 else 0) ∧
    (∀ id, evs.count (Ev.decRef id) = 0) ∧
    checkQueueSafe evs (fun _ => 0) = true ∧
    (∀ x, lockState evs (fun _ => 0) x = lockOne b0.id x) := by
  subst hevs
  rcases hdep with rfl | rfl <;>
    (refine ⟨fun id => ?_, fun id => ?_, ?_, fun x => ?_⟩ <;>
      simp [checkQueueSafe, lockState, lockOne, List.count_cons,
        List.count_nil, List.count_append] <;>
      split_ifs <;> simp_all)

theorem disconnect_events (s : WindowSurfaceState) (bN : NativeBuffer)
    (hb : s.buffer = some bN) (hbits : s.bits = true) :
    (disconnect s).2 =
      [Ev.unpin bN.id, Ev.queue (some bN.id), Ev.decRef bN.id] ++
        prevDecEvents s.previousBuffer := by
  unfold disconnect
  rw [hb]
  dsimp only
  rw [if_pos hbits]
  cases hp : s.previousBuffer <;> simp [prevDecEvents]

theorem disconnect_trace (bN : NativeBuffer) (pOpt : Option NativeBuffer)
    (evs : List Ev)
    (hevs : evs =
      [Ev.unpin bN.id, Ev.queue (some bN.id), Ev.decRef bN.id] ++
        prevDecEvents pOpt) :
    (∀ id, evs.count (Ev.incRef id) = 0) ∧
    (∀ id, evs.count (Ev.decRef id) =
      (if bN.id = id then 1 else 0) + prevContrib pOpt id) ∧
    checkQueueSafe evs (lockOne bN.id) = true := by
  subst hevs
  cases pOpt <;>
    (refine ⟨fun id => ?_, fun id => ?_, ?_⟩ <;>
      simp [prevDecEvents, prevContrib, checkQueueSafe, lockState, lockOne,
        List.count_cons, List.count_nil, List.count_append] <;>
      split_ifs <;> simp_all)

theorem runSwaps_spec (bufs : Nat → NativeBuffer)
    (hinj : ∀ i j, (bufs i).id = (bufs j).id → i = j) :
    ∀ (n k : Nat) (s : WindowSurfaceState),
      s.buffer = some (bufs k) →
      s.previousBuffer = prevAt bufs k →
      (runSwaps bufs k n s).1.buffer = some (bufs (k + n)) ∧
      (runSwaps bufs k n s).1.previousBuffer = prevAt bufs (k + n) ∧
      ((runSwaps bufs k n s).1.bits = true ∨ n = 0) ∧
      (∀ id, (runSwaps bufs k n s).2.count (Ev.incRef id) =
        incCount bufs id k n) ∧
      (∀ id, (runSwaps bufs k n s).2.count (Ev.decRef id) =
        decCount bufs id k n) ∧
      checkQueueSafe (runSwaps bufs k n s).2 (lockOne (bufs k).id) = true ∧
      (∀ x, lockState (runSwaps bufs k n s).2 (lockOne (bufs k).id) x =
        lockOne (bufs (k + n)).id x) := by
  intro n
  induction n with
  | zero =>
    intro k s hb hp
    refine ⟨by simpa [runSwaps] using hb, by simpa [runSwaps] using hp,
      Or.inr rfl, fun id => by simp [runSwaps, incCount],
      fun id => by simp [runSwaps, decCount], by simp [runSwaps, checkQueueSafe],
      fun x => by simp [runSwaps, lockState]⟩
  | succ n ih =>
    intro k s hb hp
    have hkn : k + (n + 1) = (k + 1) + n := by omega
    obtain ⟨hok, hbuf, hprev, hbits, cp, dep, hcp, hdep, hevs⟩ :=
      swapBuffers_success (bufs (k + 1)) s (bufs k) hb
    rw [hp] at hcp hevs
    have hne : (bufs (k + 1)).id ≠ (bufs k).id := fun hcontra =>
      absurd (hinj _ _ hcontra) (by omega)
    have hst := step_trace (bufs k) (bufs (k + 1)) (prevAt bufs k) cp dep
      (swapBuffers ⟨bufs (k + 1), true, true, true⟩ s).events hcp hdep hevs hne
    obtain ⟨ih1, ih2, ih3, ih4, ih5, ih6, ih7⟩ :=
      ih (k + 1) (swapBuffers ⟨bufs (k + 1), true, true, true⟩ s).state
        hbuf hprev
    have hrun : runSwaps bufs k (n + 1) s =
        ((runSwaps bufs (k + 1) n
            (swapBuffers ⟨bufs (k + 1), true, true, true⟩ s).state).1,
         (swapBuffers ⟨bufs (k + 1), true, true, true⟩ s).events ++
           (runSwaps bufs (k + 1) n
             (swapBuffers ⟨bufs (k + 1), true, true, true⟩ s).state).2) := rfl
    rw [hkn, hrun]
    refine ⟨ih1, ih2, ?_, fun id => ?_, fun id => ?_, ?_, fun x => ?_⟩
    · cases n with
      | zero =>
        left
        exact hbits
      | succ m => exact Or.inl (ih3.resolve_right (by omega))
    · rw [List.count_append, hst.1 id, ih4 id]
      simp [incCount]
    · rw [List.count_append, hst.2.1 id, ih5 id]
      simp [decCount]
    · rw [checkQueueSafe_append, hst.2.2.1,
        checkQueueSafe_congr _ _ _ hst.2.2.2]
      simpa using ih6
    · rw [lockState_append, lockState_congr _ _ _ hst.2.2.2 x]
      exact ih7 x

end FGL

namespace FGL

theorem count_balance (bufs : Nat → NativeBuffer) (id : Nat) :
    ∀ n k, incCount bufs id k n + openRefs bufs id k =
      decCount bufs id k n + openRefs bufs id (k + n) := by
  intro n
  induction n with
  | zero => intro k; simp [incCount, decCount]
  | succ m ih =>
    intro k
    have hkm : k + (m + 1) = (k + 1) + m := by omega
    rw [hkm]
    have hih := ih (k + 1)
    simp only [incCount, decCount, openRefs, prevAt, prevContrib] at hih ⊢
    omega

theorem incCount_at (bufs : Nat → NativeBuffer)
    (hinj : ∀ i j, (bufs i).id = (bufs j).id → i = j) (i : Nat) :
    ∀ n k, incCount bufs ((bufs i).id) k n =
      if k + 1 ≤ i ∧ i ≤ k + n then 1 else 0 := by
  intro n
  induction n with
  | zero =>
    intro k
    simp only [incCount]
    rw [if_neg (by omega)]
  | succ m ih =>
    intro k
    simp only [incCount]
    rw [ih (k + 1)]
    by_cases hik : (bufs (k + 1)).id = (bufs i).id
    · have hi := hinj _ _ hik
      rw [if_pos hik]
      split_ifs <;> omega
    · have hne : k + 1 ≠ i := fun hcontra => hik (by rw [hcontra])
      rw [if_neg hik]
      split_ifs <;> omega

/-- C4: across `connect` followed by `N` successful `swapBuffers` calls
followed by `disconnect`, every buffer reference taken (`incRef`) is released
(`decRef`) exactly once — in particular each dequeued buffer's single
reference is balanced, with the previous-buffer reference released before
reassignment — and no buffer is queued back to the provider while it still
holds an active pin (gralloc lock). -/
theorem refcount_balance (bufs : Nat → NativeBuffer)
    (hinj : ∀ i j, (bufs i).id = (bufs j).id → i = j)
    (N : Nat) (w h df : Int) (d od : Rect) :
    (∀ id, (fullRun bufs N (initialState w h df d od)).count (Ev.incRef id) =
      (fullRun bufs N (initialState w h df d od)).count (Ev.decRef id)) ∧
    (∀ i, i ≤ N →
      (fullRun bufs N (initialState w h df d od)).count
        (Ev.incRef (bufs i).id) = 1) ∧
    checkQueueSafe (fullRun bufs N (initialState w h df d od))
      (fun _ => 0) = true := by
  obtain ⟨hcok, hcbuf, hcprev, hcbits, cdep, hcdep, hcevs⟩ :=
    connect_success (bufs 0) (initialState w h df d od)
  obtain ⟨hc1, hc2, hc3, hc4⟩ := connect_trace (bufs 0) cdep _ hcdep hcevs
  have hcprev0 : (connect ⟨some (bufs 0), true, true⟩
      (initialState w h df d od)).state.previousBuffer = prevAt bufs 0 :=
    hcprev
  obtain ⟨hr1, hr2, hr3, hr4, hr5, hr6, hr7⟩ :=
    runSwaps_spec bufs hinj N 0
      (connect ⟨some (bufs 0), true, true⟩ (initialState w h df d od)).state
      hcbuf hcprev0
  have hrbits : (runSwaps bufs 0 N
      (connect ⟨some (bufs 0), true, true⟩
        (initialState w h df d od)).state).1.bits = true := by
    rcases hr3 with hb' | hN0
    · exact hb'
    · subst hN0
      exact hcbits
  have hzn : (0 : Nat) + N = N := by omega
  rw [hzn] at hr1 hr2 hr7
  have hdevs := disconnect_events _ (bufs N) hr1 hrbits
  rw [hr2] at hdevs
  obtain ⟨hd1, hd2, hd3⟩ := disconnect_trace (bufs N) (prevAt bufs N) _ hdevs
  have hT : fullRun bufs N (initialState w h df d od) =
      (connect ⟨some (bufs 0), true, true⟩
        (initialState w h df d od)).events ++
      (runSwaps bufs 0 N
        (connect ⟨some (bufs 0), true, true⟩
          (initialState w h df d od)).state).2 ++
      (disconnect (runSwaps bufs 0 N
        (connect ⟨some (bufs 0), true, true⟩
          (initialState w h df d od)).state).1).2 := rfl
  rw [hT]
  refine ⟨fun id => ?_, fun i hi => ?_, ?_⟩
  · rw [List.count_append, List.count_append, List.count_append,
      List.count_append, hc1 id, hc2 id, hr4 id, hr5 id, hd1 id, hd2 id]
    have hbal := count_balance bufs id N 0
    rw [hzn] at hbal
    simp only [openRefs] at hbal
    have h0 : prevContrib (prevAt bufs 0) id = 0 := rfl
    omega
  · rw [List.count_append, List.count_append, hc1 _, hr4 _, hd1 _,
      incCount_at bufs hinj i N 0]
    rw [hzn]
    by_cases hi0 : i = 0
    · subst hi0
      rw [if_pos rfl, if_neg (by omega)]
    · have : (bufs 0).id = (bufs i).id → False := fun hcontra =>
        hi0 (hinj _ _ hcontra).symm
      rw [if_neg this, if_pos (by omega)]
  · rw [checkQueueSafe_append, checkQueueSafe_append, hc3,
      checkQueueSafe_congr _ _ _ hc4, hr6,
      lockState_append,
      checkQueueSafe_congr _ (lockState _ (lockState _ fun _ => 0))
        (lockOne (bufs N).id)
        (fun x => by rw [lockState_congr _ _ _ hc4 x, hr7 x]), hd3]
    rfl

end FGL

namespace FGL

/-- Witness for `refcount_balance`: three distinct 64×64 buffers, two swaps
between connect and disconnect. -/
theorem refcount_balance_witness :
    (∀ i j : Nat,
      ((fun n => (⟨n, 64, 64, 64⟩ : NativeBuffer)) i).id =
        ((fun n => (⟨n, 64, 64, 64⟩ : NativeBuffer)) j).id → i = j) ∧
    ((∀ id, (fullRun (fun n => ⟨n, 64, 64, 64⟩) 2
        (initialState 64 64 0 ⟨0, 0, 0, 0⟩ ⟨0, 0, 0, 0⟩)).count
          (Ev.incRef id) =
      (fullRun (fun n => ⟨n, 64, 64, 64⟩) 2
        (initialState 64 64 0 ⟨0, 0, 0, 0⟩ ⟨0, 0, 0, 0⟩)).count
          (Ev.decRef id)) ∧
    (∀ i, i ≤ 2 →
      (fullRun (fun n => ⟨n, 64, 64, 64⟩) 2
        (initialState 64 64 0 ⟨0, 0, 0, 0⟩ ⟨0, 0, 0, 0⟩)).count
          (Ev.incRef ((fun n => (⟨n, 64, 64, 64⟩ : NativeBuffer)) i).id) = 1) ∧
    checkQueueSafe (fullRun (fun n => ⟨n, 64, 64, 64⟩) 2
      (initialState 64 64 0 ⟨0, 0, 0, 0⟩ ⟨0, 0, 0, 0⟩)) (fun _ => 0) = true) :=
  ⟨fun i j hf => hf,
    refcount_balance (fun n => ⟨n, 64, 64, 64⟩) (fun i j hf => hf) 2
      64 64 0 ⟨0, 0, 0, 0⟩ ⟨0, 0, 0, 0⟩⟩

end FGL
